import Mathlib

/-!
Verification of the QFieldCloud job dequeue/scheduling core
(`qfieldcloud/core/management/commands/dequeue.py`) and the deltafile
upload handler (`qfieldcloud/core/views/deltas_views.py`), as a shallow
embedding: the job store is a list of rows in the database's enumeration
order, one scheduler instance runs (so `skip_locked` never skips a row),
and Django ORM queries are translated to list operations.
-/

namespace QFC

/-- `Job.Status` of the `Job` model: pending, queued, started, finished, failed. -/
inductive Status where
  | pending
  | queued
  | started
  | finished
  | failed
deriving DecidableEq, Repr

/-- One row of the `Job` table, with the fields `dequeue.py` reads:
primary key `id`, `project_id`, `type` (a string column), `status` and
`created_at` (timestamps totally ordered as naturals). -/
structure Job where
  id : Nat
  projectId : Nat
  type : String
  status : Status
  createdAt : Nat
deriving DecidableEq, Repr

/-- The job store: the rows of the `Job` table in the database's
(unspecified) enumeration order. -/
abbrev Store := List Job

/-- `status ∈ [Job.Status.QUEUED, Job.Status.STARTED]` — the statuses the
busy-project annotation counts. -/
def isActive (s : Status) : Bool :=
  s == Status.queued || s == Status.started

/-- `Job.objects.filter(status=Job.Status.PENDING)`. -/
def pendingJobs (store : Store) : List Job :=
  store.filter (fun j => j.status == Status.pending)

/-- The `active_jobs_count` annotation of `dequeue.py` lines 57-67: the
number of jobs of project `pid` whose status is queued or started. -/
def activeCount (store : Store) (pid : Nat) : Nat :=
  (store.filter (fun k => k.projectId == pid && isActive k.status)).length

/-- `busy_projects_ids_qs` of `dequeue.py` lines 53-70: the `project_id`
values of the pending jobs whose `active_jobs_count` is `> 0`. -/
def busyProjectIds (store : Store) : List Nat :=
  (((pendingJobs store).filter
      (fun j => decide (0 < activeCount store j.projectId))).map
    (fun j => j.projectId))

/-- `jobs_qs` of `dequeue.py` lines 73-78 before ordering: the pending
jobs whose project is not in `busy_projects_ids_qs` (the
`select_for_update(skip_locked=True)` lock contends with nothing in the
single-scheduler model). -/
def candidates (store : Store) : List Job :=
  (pendingJobs store).filter
    (fun j => !((busyProjectIds store).contains j.projectId))

/-- `.order_by("created_at").first()`: the first row of the list once
sorted by `created_at`. SQL fixes no order among rows with equal
`created_at`, so ties fall to the underlying enumeration order: the
earliest row among those with the smallest `created_at`. -/
def firstByCreatedAt : List Job → Option Job
  | [] => none
  | j :: rest =>
    match firstByCreatedAt rest with
    | none => some j
    | some k => if j.createdAt ≤ k.createdAt then some j else some k

/-- `queued_job = jobs_qs.first()` (`dequeue.py` line 81). -/
def selectJob (store : Store) : Option Job :=
  firstByCreatedAt (candidates store)

/-- `queued_job.status = Job.Status.QUEUED; queued_job.save()`
(`dequeue.py` lines 86-87): write status queued to the row with primary
key `jid`. -/
def setQueued (store : Store) (jid : Nat) : Store :=
  store.map (fun j => if j.id == jid then { j with status := Status.queued } else j)

/-- One claim transaction (`dequeue.py` lines 51-87): select the oldest
eligible pending job; if there is one, persist its transition to queued
and hand back the updated in-memory instance. -/
def claimOne (store : Store) : Option Job × Store :=
  match selectJob store with
  | none => (none, store)
  | some j => (some { j with status := Status.queued }, setQueued store j.id)

/-- `n` consecutive scheduler iterations acting on the store (the runner
does not write in this model): the store after iterating the claim
transaction `n` times. -/
def iterClaim : Nat → Store → Store
  | 0, s => s
  | Nat.succ n, s => iterClaim n (claimOne s).2

/-- The three `worker_wrapper` job-run classes `dequeue.py` imports:
`PackageJobRun`, `DeltaApplyJobRun`, `ProcessProjectfileJobRun`. -/
inductive RunnerClass where
  | packageJobRun
  | deltaApplyJobRun
  | processProjectfileJobRun
deriving DecidableEq, Repr

/-- The `job_run_classes` dispatch table of `Command._run` (`dequeue.py`
lines 104-108), keyed by the `Job.Type` string values. -/
def jobRunClasses : List (String × RunnerClass) :=
  [("package", RunnerClass.packageJobRun),
    ("delta_apply", RunnerClass.deltaApplyJobRun),
    ("process_projectfile", RunnerClass.processProjectfileJobRun)]

/-- `job.type in job_run_classes` / `job_run_classes[job.type]`. -/
def lookupRunClass (t : String) : Option RunnerClass :=
  (jobRunClasses.find? (fun p => p.1 == t)).map (fun p => p.2)

/-- `Command._run` (`dequeue.py` lines 103-116): pick the job-run class
for `job.type`, or raise `NotImplementedError` for any other type; then
`job_run_class(job.id)` and `job_run.run()`. Modelled from the spec for
the part outside src/: `JobRun.run` (in `worker_wrapper/wrapper.py`,
absent from the staged sources) catches execution-handler failures
internally and returns, so a known type never raises out of `_run`. -/
def commandRun (j : Job) : Except String RunnerClass :=
  match lookupRunClass j.type with
  | some c => Except.ok c
  | none => Except.error ("Unknown job type " ++ j.type)

/-- The observable steps of the dequeue loop, in program order: each read
of `killer.alive` (at the `while` condition, `dequeue.py` line 43, or
inside the idle sleep, line 97), the committed claim transaction, the
synchronous `_run`, each `sleep(1)`, and the clean exit of the loop. -/
inductive Event where
  | topCheck (b : Bool)
  | claimed (jid : Nat)
  | emptyPoll
  | ran (jid : Nat)
  | raised (m : String)
  | sleepCheck (b : Bool)
  | slept
  | exited
deriving DecidableEq, Repr

/-- The idle sleep of `dequeue.py` lines 96-98: `for _i in range(SECONDS)`
with `SECONDS = 5`, reading `killer.alive` once per unit and sleeping one
unit only while it is true. `flags` is the oracle giving the value of the
shared alive flag at its `k`-th read. Returns the events and the index of
the next flag read. -/
def sleepPhase (flags : Nat → Bool) : Nat → Nat → List Event × Nat
  | k, 0 => ([], k)
  | k, Nat.succ n =>
    let rest := sleepPhase flags (k + 1) n
    ((if flags k then Event.sleepCheck true :: Event.slept :: rest.1
      else Event.sleepCheck false :: rest.1), rest.2)

/-- `Command.handle` (`dequeue.py` lines 39-101) as a fuel-bounded event
trace: read the alive flag at the `while` condition; if true, run the
claim transaction; on a claim, `_run` the job synchronously (its raise,
possible only for an unknown type, propagates and ends the loop); on an
empty poll, in daemon mode, do the 5-unit interruptible sleep; with
`--single-shot`, break after the one iteration (before the sleep on an
empty poll). Returns the trace and the final store. -/
def handleLoop (singleShot : Bool) (flags : Nat → Bool) :
    Nat → Store → Nat → List Event × Store
  | 0, store, _k => ([], store)
  | Nat.succ fuel, store, k =>
    if flags k then
      match claimOne store with
      | (some j, store') =>
        match commandRun j with
        | Except.ok _ =>
          if singleShot then
            ([Event.topCheck true, Event.claimed j.id, Event.ran j.id], store')
          else
            let rest := handleLoop singleShot flags fuel store' (k + 1)
            (Event.topCheck true :: Event.claimed j.id :: Event.ran j.id ::
              rest.1, rest.2)
        | Except.error m =>
          ([Event.topCheck true, Event.claimed j.id, Event.raised m], store')
      | (none, _) =>
        if singleShot then
          ([Event.topCheck true, Event.emptyPoll], store)
        else
          let sp := sleepPhase flags (k + 1) 5
          let rest := handleLoop singleShot flags fuel store sp.2
          (Event.topCheck true :: Event.emptyPoll :: (sp.1 ++ rest.1), rest.2)
    else
      ([Event.topCheck false, Event.exited], store)

/-- Whether an event is a read of the alive flag at the `while` condition. -/
def isTopCheck : Event → Bool
  | Event.topCheck _ => true
  | _ => false

/-- The number of `while`-condition flag reads in a trace: the number of
loop iterations begun (counting the final read that exits). -/
def countTop (evs : List Event) : Nat :=
  (evs.filter isTopCheck).length

/-- Whether an event is a flag read inside the idle sleep. -/
def isSleepCheck : Event → Bool
  | Event.sleepCheck _ => true
  | _ => false

/-- Whether an event is an empty poll (a committed claim transaction that
found no candidate). -/
def isEmptyPoll : Event → Bool
  | Event.emptyPoll => true
  | _ => false

/-- Which event may immediately follow which in a well-disciplined trace:
a clean exit only right after a `while`-condition read of false; a claim
transaction and an empty poll only right after a `while`-condition read of
true; the run of job `j` only right after the claim of `j`, a raise only
right after a claim (so no flag read, hence no exit, separates a claim
from its run); one unit of sleep exactly after an in-sleep read of true. -/
def adjOk : Event → Event → Bool
  | p, Event.exited => p == Event.topCheck false
  | p, Event.claimed _ => p == Event.topCheck true
  | p, Event.emptyPoll => p == Event.topCheck true
  | Event.claimed j, Event.ran i => j == i
  | _, Event.ran _ => false
  | Event.claimed _, Event.raised _ => true
  | _, Event.raised _ => false
  | p, Event.slept => p == Event.sleepCheck true
  | Event.sleepCheck true, _ => false
  | Event.claimed _, _ => false
  | _, _ => true

/-- The discipline of the suffix of a trace after event `p`: consecutive
events satisfy `adjOk`; the trace never ends right after a claim (the run
happens first) or right after an in-sleep read of true (the unit sleep
happens first); nothing follows a clean exit or a raise. -/
def chainOk : Event → List Event → Bool
  | Event.sleepCheck true, [] => false
  | Event.claimed _, [] => false
  | Event.exited, _ :: _ => false
  | Event.raised _, _ :: _ => false
  | _, [] => true
  | p, e :: rest => adjOk p e && chainOk e rest

/-- Previous events that put no constraint on what follows. -/
def neutralPrev : Event → Bool
  | Event.claimed _ => false
  | Event.sleepCheck true => false
  | Event.exited => false
  | Event.raised _ => false
  | _ => true

/-- A disciplined loop trace: empty (fuel ran out before the first flag
read), or opened by a `while`-condition flag read and chained by `adjOk`
throughout. -/
def traceOk : List Event → Bool
  | [] => true
  | e :: rest => isTopCheck e && chainOk e rest

/-- The number of events of a trace satisfying `p`. -/
def countEvents (p : Event → Bool) (evs : List Event) : Nat :=
  (evs.filter p).length

/-- `Delta.STATUS_PENDING` and `Delta.STATUS_UNPERMITTED` — the two
statuses the upload handler assigns (`deltas_views.py` lines 76-78). -/
inductive DeltaStatus where
  | pending
  | unpermitted
deriving DecidableEq, Repr

/-- One element of the uploaded deltafile's `deltas` list, with the
outcomes of the effectful calls the handler makes on it: `uuid` is
`delta["uuid"]`; `permitted` the result of `can_store_delta`; `saveOk`
whether `delta_obj.save(force_insert=True)` succeeds (it raises, e.g. on
a duplicate primary key). -/
structure DeltaInput where
  uuid : Nat
  permitted : Bool
  saveOk : Bool
deriving DecidableEq, Repr

/-- The uploaded file as the handler observes it: the raw content, whether
`json.load` succeeds (`parseOk`), whether the deltafile schema validator
accepts the JSON (`schemaOk`), the deltafile `id`, and the `deltas`
list. -/
structure DeltaFile where
  raw : String
  parseOk : Bool
  schemaOk : Bool
  id : Nat
  deltas : List DeltaInput
deriving DecidableEq, Repr

/-- One row of the `Delta` table as `ListCreateDeltasView.post` inserts
it: primary key `delta["uuid"]`, the deltafile id, the project, and the
status chosen by the permission check. -/
structure StoredDelta where
  id : Nat
  deltafileId : Nat
  projectId : Nat
  status : DeltaStatus
deriving DecidableEq, Repr

/-- The state the handler mutates: the `Delta` table, and the
rejected-files storage (`projects/<projectid>/deltas/<timestamp>.json`
objects in the bucket, modelled by the raw contents in upload order). -/
structure DeltaState where
  stored : List StoredDelta
  rejected : List String
deriving DecidableEq, Repr

/-- The two exceptions the handler raises: `EmptyContentError` and
`DeltafileValidationError`. -/
inductive DeltaError where
  | emptyContent
  | deltafileValidation
deriving DecidableEq, Repr

/-- The `Delta(...)` row built for one delta of the file
(`deltas_views.py` lines 68-78). -/
def deltaRow (projectId dfid : Nat) (d : DeltaInput) : StoredDelta :=
  ⟨d.uuid, dfid, projectId,
    if d.permitted then DeltaStatus.pending else DeltaStatus.unpermitted⟩

/-- The `for delta in deltas` loop (`deltas_views.py` lines 67-80): save
each row in turn; the first failing save raises, keeping the rows already
inserted (the loop runs in no enclosing transaction). Returns whether all
saves succeeded, with the resulting table. -/
def saveDeltas (projectId dfid : Nat) :
    List DeltaInput → List StoredDelta → Bool × List StoredDelta
  | [], stored => (true, stored)
  | d :: rest, stored =>
    if d.saveOk then
      saveDeltas projectId dfid rest (stored ++ [deltaRow projectId dfid d])
    else (false, stored)

/-- `ListCreateDeltasView.post` (`deltas_views.py` lines 51-89): no
`"file"` in the request raises `EmptyContentError` before touching
anything; otherwise any exception while parsing, validating or saving is
caught, the raw file is uploaded to the rejected storage, and
`DeltafileValidationError` is raised; success returns with every delta
stored. -/
def postDeltafile (projectId : Nat) (req : Option DeltaFile)
    (s : DeltaState) : Except DeltaError Unit × DeltaState :=
  match req with
  | none => (Except.error DeltaError.emptyContent, s)
  | some f =>
    if !f.parseOk then
      (Except.error DeltaError.deltafileValidation,
        { s with rejected := s.rejected ++ [f.raw] })
    else if !f.schemaOk then
      (Except.error DeltaError.deltafileValidation,
        { s with rejected := s.rejected ++ [f.raw] })
    else
      match saveDeltas projectId f.id f.deltas s.stored with
      | (true, stored') => (Except.ok (), { s with stored := stored' })
      | (false, stored') =>
        (Except.error DeltaError.deltafileValidation,
          ⟨stored', s.rejected ++ [f.raw]⟩)

example :
    selectJob [⟨1, 10, "package", Status.pending, 3⟩,
      ⟨2, 10, "package", Status.pending, 1⟩] =
      some ⟨2, 10, "package", Status.pending, 1⟩ := by decide

example :
    selectJob [⟨1, 10, "package", Status.pending, 3⟩,
      ⟨2, 10, "package", Status.queued, 1⟩] = none := by decide

lemma isActive_iff {s : Status} :
    isActive s = true ↔ s = Status.queued ∨ s = Status.started := by
  cases s <;> simp [isActive]

lemma mem_pendingJobs {store : Store} {j : Job} :
    j ∈ pendingJobs store ↔ j ∈ store ∧ j.status = Status.pending := by
  simp [pendingJobs, List.mem_filter]

lemma activeCount_eq_zero_iff {store : Store} {pid : Nat} :
    activeCount store pid = 0 ↔
      ∀ k ∈ store, k.projectId = pid →
        k.status ≠ Status.queued ∧ k.status ≠ Status.started := by
  unfold activeCount
  rw [List.length_eq_zero, List.filter_eq_nil_iff]
  constructor
  · intro h k hk hpid
    have := h k hk
    simp [hpid, isActive_iff] at this
    exact ⟨this.1, this.2⟩
  · intro h k hk
    simp only [Bool.and_eq_true, beq_iff_eq, not_and]
    intro hpid hact
    rcases isActive_iff.mp hact with hq | hs
    · exact (h k hk hpid).1 hq
    · exact (h k hk hpid).2 hs

lemma mem_busyProjectIds {store : Store} {pid : Nat} :
    pid ∈ busyProjectIds store ↔
      ∃ j ∈ store, j.status = Status.pending ∧ j.projectId = pid ∧
        0 < activeCount store pid := by
  unfold busyProjectIds
  simp only [List.mem_map, List.mem_filter, mem_pendingJobs, decide_eq_true_eq]
  constructor
  · rintro ⟨j, ⟨⟨hmem, hp⟩, hact⟩, rfl⟩
    exact ⟨j, hmem, hp, rfl, hact⟩
  · rintro ⟨j, hmem, hp, rfl, hact⟩
    exact ⟨j, ⟨⟨hmem, hp⟩, hact⟩, rfl⟩

lemma contains_busy_eq {store : Store} {j : Job} (hmem : j ∈ store)
    (hp : j.status = Status.pending) :
    (busyProjectIds store).contains j.projectId =
      decide (0 < activeCount store j.projectId) := by
  by_cases hact : 0 < activeCount store j.projectId
  · have : j.projectId ∈ busyProjectIds store :=
      mem_busyProjectIds.mpr ⟨j, hmem, hp, rfl, hact⟩
    simp [List.contains, List.elem_eq_mem, this, hact]
  · have : j.projectId ∉ busyProjectIds store := by
      intro hin
      rcases mem_busyProjectIds.mp hin with ⟨k, _, _, _, hk⟩
      exact hact hk
    simp [List.contains, List.elem_eq_mem, this, hact]

lemma candidates_eq_filter (store : Store) :
    candidates store =
      store.filter
        (fun j => j.status == Status.pending &&
          activeCount store j.projectId == 0) := by
  unfold candidates pendingJobs
  rw [List.filter_filter]
  apply List.filter_congr
  intro j hmem
  by_cases hp : j.status = Status.pending
  · rw [contains_busy_eq hmem hp]
    by_cases hact : 0 < activeCount store j.projectId
    · have : activeCount store j.projectId ≠ 0 := Nat.pos_iff_ne_zero.mp hact
      simp [hp, hact, this]
    · have : activeCount store j.projectId = 0 := Nat.eq_zero_of_not_pos hact
      simp [hp, hact, this]
  · have hb : (j.status == Status.pending) = false := by
      simp [hp]
    simp [hb]

/-- Claim C1: the candidate set computed inside the claim transaction is
exactly the pending jobs whose project has no job with status queued or
started; a project with such an active job contributes no candidate,
however many pending jobs it has. -/
theorem dequeue_busy_project_isolation (store : Store) :
    candidates store =
      store.filter
        (fun j => j.status == Status.pending &&
          activeCount store j.projectId == 0) ∧
    ∀ j : Job, j ∈ candidates store ↔
      j ∈ store ∧ j.status = Status.pending ∧
        ∀ k ∈ store, k.projectId = j.projectId →
          k.status ≠ Status.queued ∧ k.status ≠ Status.started := by
  refine ⟨candidates_eq_filter store, fun j => ?_⟩
  rw [candidates_eq_filter store, List.mem_filter]
  simp only [Bool.and_eq_true, beq_iff_eq]
  constructor
  · rintro ⟨hmem, hp, hz⟩
    exact ⟨hmem, hp, activeCount_eq_zero_iff.mp hz⟩
  · rintro ⟨hmem, hp, hfree⟩
    exact ⟨hmem, hp, activeCount_eq_zero_iff.mpr hfree⟩

lemma firstByCreatedAt_eq_none {l : List Job} :
    firstByCreatedAt l = none ↔ l = [] := by
  cases l with
  | nil => simp [firstByCreatedAt]
  | cons j rest =>
    simp only [firstByCreatedAt]
    cases firstByCreatedAt rest with
    | none => simp
    | some k =>
      by_cases h : j.createdAt ≤ k.createdAt <;> simp [h]

lemma firstByCreatedAt_mem {l : List Job} {j : Job}
    (h : firstByCreatedAt l = some j) : j ∈ l := by
  induction l with
  | nil => simp [firstByCreatedAt] at h
  | cons a rest ih =>
    simp only [firstByCreatedAt] at h
    cases hr : firstByCreatedAt rest with
    | none =>
      rw [hr] at h
      simp at h
      simp [h]
    | some k =>
      rw [hr] at h
      by_cases hle : a.createdAt ≤ k.createdAt
      · simp [hle] at h
        simp [h]
      · simp [hle] at h
        exact List.mem_cons_of_mem a (ih (h ▸ hr))

lemma firstByCreatedAt_min {l : List Job} :
    ∀ {j : Job}, firstByCreatedAt l = some j →
      ∀ k ∈ l, j.createdAt ≤ k.createdAt := by
  induction l with
  | nil => intro j h; simp [firstByCreatedAt] at h
  | cons a rest ih =>
    intro j h
    simp only [firstByCreatedAt] at h
    cases hr : firstByCreatedAt rest with
    | none =>
      have hnil : rest = [] := firstByCreatedAt_eq_none.mp hr
      rw [hr] at h
      simp at h
      subst h
      simp [hnil]
    | some k =>
      rw [hr] at h
      by_cases hle : a.createdAt ≤ k.createdAt
      · simp [hle] at h
        subst h
        intro m hm
        rcases List.mem_cons.mp hm with rfl | hm
        · exact Nat.le_refl _
        · exact Nat.le_trans hle (ih hr m hm)
      · simp [hle] at h
        subst h
        intro m hm
        rcases List.mem_cons.mp hm with rfl | hm
        · exact Nat.le_of_lt (Nat.lt_of_not_le hle)
        · exact ih hr m hm

lemma firstByCreatedAt_first_min {l : List Job} :
    ∀ {j : Job}, firstByCreatedAt l = some j →
      ∃ pre post, l = pre ++ j :: post ∧
        ∀ k ∈ pre, j.createdAt < k.createdAt := by
  induction l with
  | nil => intro j h; simp [firstByCreatedAt] at h
  | cons a rest ih =>
    intro j h
    simp only [firstByCreatedAt] at h
    cases hr : firstByCreatedAt rest with
    | none =>
      rw [hr] at h
      simp at h
      subst h
      exact ⟨[], rest, rfl, by simp⟩
    | some k =>
      rw [hr] at h
      by_cases hle : a.createdAt ≤ k.createdAt
      · simp [hle] at h
        subst h
        exact ⟨[], rest, rfl, by simp⟩
      · simp [hle] at h
        subst h
        obtain ⟨pre, post, hsplit, hpre⟩ := ih hr
        refine ⟨a :: pre, post, by simp [hsplit], ?_⟩
        intro m hm
        rcases List.mem_cons.mp hm with rfl | hm
        · exact Nat.lt_of_not_le hle
        · exact hpre m hm

/-- Claim C2: when the claim transaction claims a job, the claimed job is
(the queued copy of) a candidate whose `created_at` is smallest in the
candidate set. -/
theorem dequeue_claims_oldest (store : Store) (j : Job)
    (h : (claimOne store).1 = some j) :
    ∃ j0, selectJob store = some j0 ∧ j = { j0 with status := Status.queued } ∧
      j0 ∈ candidates store ∧
      ∀ k ∈ candidates store, j0.createdAt ≤ k.createdAt := by
  unfold claimOne at h
  cases hs : selectJob store with
  | none => rw [hs] at h; simp at h
  | some j0 =>
    rw [hs] at h
    simp at h
    exact ⟨j0, rfl, h.symm, firstByCreatedAt_mem hs, firstByCreatedAt_min hs⟩

/-- Witness for C2: three pending jobs of one free project with
`created_at` 1 < 2 < 3; the first claim takes the one created at 1. -/
theorem dequeue_claims_oldest_witness :
    (claimOne [⟨1, 10, "package", Status.pending, 2⟩,
        ⟨2, 10, "package", Status.pending, 1⟩,
        ⟨3, 10, "package", Status.pending, 3⟩]).1 =
      some ⟨2, 10, "package", Status.queued, 1⟩ ∧
    ∃ j0, selectJob [⟨1, 10, "package", Status.pending, 2⟩,
        ⟨2, 10, "package", Status.pending, 1⟩,
        ⟨3, 10, "package", Status.pending, 3⟩] = some j0 ∧
      (⟨2, 10, "package", Status.queued, 1⟩ : Job) =
        { j0 with status := Status.queued } ∧
      j0 ∈ candidates [⟨1, 10, "package", Status.pending, 2⟩,
        ⟨2, 10, "package", Status.pending, 1⟩,
        ⟨3, 10, "package", Status.pending, 3⟩] ∧
      ∀ k ∈ candidates [⟨1, 10, "package", Status.pending, 2⟩,
        ⟨2, 10, "package", Status.pending, 1⟩,
        ⟨3, 10, "package", Status.pending, 3⟩], j0.createdAt ≤ k.createdAt :=
  ⟨by decide, dequeue_claims_oldest _ _ (by decide)⟩

/-- Counterexample to C9 as stated: two stores holding the same rows (a
permutation, i.e. the same logical job-store state — SQL fixes no row
order beyond the `ORDER BY` keys) with two eligible jobs tied on
`created_at` yield different claimed jobs, so no secondary ordering key
such as the job id fixes the scheduler's choice. -/
theorem dequeue_tie_counterexample :
    List.Perm
      ([⟨1, 10, "package", Status.pending, 5⟩,
        ⟨2, 10, "package", Status.pending, 5⟩] : Store)
      [⟨2, 10, "package", Status.pending, 5⟩,
        ⟨1, 10, "package", Status.pending, 5⟩] ∧
    (claimOne [⟨1, 10, "package", Status.pending, 5⟩,
        ⟨2, 10, "package", Status.pending, 5⟩]).1 ≠
      (claimOne [⟨2, 10, "package", Status.pending, 5⟩,
        ⟨1, 10, "package", Status.pending, 5⟩]).1 :=
  ⟨List.Perm.swap _ _ _, by decide⟩

/-- Claim C9 amended: `order_by("created_at")` has no secondary key, so
among eligible jobs tied at the smallest `created_at` the scheduler
claims the one that comes first in the store's row enumeration order
(every candidate row before it is strictly younger is false — strictly
larger `created_at`), deterministic only relative to that row order. -/
theorem dequeue_tie_row_order (store : Store) (j : Job)
    (h : (claimOne store).1 = some j) :
    ∃ j0 pre post, j = { j0 with status := Status.queued } ∧
      candidates store = pre ++ j0 :: post ∧
      (∀ k ∈ candidates store, j0.createdAt ≤ k.createdAt) ∧
      ∀ k ∈ pre, j0.createdAt < k.createdAt := by
  unfold claimOne at h
  cases hs : selectJob store with
  | none => rw [hs] at h; simp at h
  | some j0 =>
    rw [hs] at h
    simp at h
    obtain ⟨pre, post, hsplit, hpre⟩ := firstByCreatedAt_first_min hs
    exact ⟨j0, pre, post, h.symm, hsplit, firstByCreatedAt_min hs, hpre⟩

/-- Witness for amended C9: two jobs tied at `created_at` 5; the claimed
job is the first row, and the decomposition of the candidate list around
it is as the theorem states. -/
theorem dequeue_tie_row_order_witness :
    (claimOne [⟨7, 10, "package", Status.pending, 5⟩,
        ⟨3, 10, "package", Status.pending, 5⟩]).1 =
      some ⟨7, 10, "package", Status.queued, 5⟩ ∧
    ∃ j0 pre post,
      (⟨7, 10, "package", Status.queued, 5⟩ : Job) =
        { j0 with status := Status.queued } ∧
      candidates [⟨7, 10, "package", Status.pending, 5⟩,
          ⟨3, 10, "package", Status.pending, 5⟩] = pre ++ j0 :: post ∧
      (∀ k ∈ candidates [⟨7, 10, "package", Status.pending, 5⟩,
          ⟨3, 10, "package", Status.pending, 5⟩],
        j0.createdAt ≤ k.createdAt) ∧
      ∀ k ∈ pre, j0.createdAt < k.createdAt :=
  ⟨by decide, dequeue_tie_row_order _ _ (by decide)⟩

lemma setQueued_of_ne {l : List Job} {jid : Nat}
    (h : ∀ k ∈ l, k.id ≠ jid) : setQueued l jid = l := by
  induction l with
  | nil => rfl
  | cons a rest ih =>
    have ha : (a.id == jid) = false := by
      simp [h a (List.mem_cons_self a rest)]
    have hrest : setQueued rest jid = rest :=
      ih (fun k hk => h k (List.mem_cons_of_mem a hk))
    unfold setQueued at hrest ⊢
    rw [List.map_cons, hrest, ha]
    simp

lemma setQueued_split {pre post : List Job} {j0 : Job}
    (hpre : ∀ k ∈ pre, k.id ≠ j0.id) (hpost : ∀ k ∈ post, k.id ≠ j0.id) :
    setQueued (pre ++ j0 :: post) j0.id =
      pre ++ { j0 with status := Status.queued } :: post := by
  unfold setQueued
  rw [List.map_append, List.map_cons]
  have h1 : setQueued pre j0.id = pre := setQueued_of_ne hpre
  have h2 : setQueued post j0.id = post := setQueued_of_ne hpost
  unfold setQueued at h1 h2
  rw [h1, h2]
  simp

lemma candidates_sub_store {store : Store} {j : Job}
    (h : j ∈ candidates store) : j ∈ store ∧ j.status = Status.pending := by
  unfold candidates at h
  exact mem_pendingJobs.mp (List.mem_filter.mp h).1

/-- Claim C4: the only mutation one claim transaction performs is to take
one job whose status is pending to status queued: an empty claim changes
nothing, and a successful claim rewrites exactly one row (jobs have
distinct primary keys), leaving every other row — and every other status —
untouched. -/
theorem dequeue_claim_transition (store : Store)
    (hids : (store.map Job.id).Nodup) :
    ((claimOne store).1 = none → (claimOne store).2 = store) ∧
    ∀ j : Job, (claimOne store).1 = some j →
      j.status = Status.queued ∧
      ∃ pre j0 post, store = pre ++ j0 :: post ∧
        j0.status = Status.pending ∧
        j = { j0 with status := Status.queued } ∧
        (claimOne store).2 = pre ++ { j0 with status := Status.queued } :: post := by
  constructor
  · intro h
    cases hs : selectJob store with
    | none =>
      show (claimOne store).2 = store
      unfold claimOne
      rw [hs]
    | some j0 =>
      have : (claimOne store).1 = some { j0 with status := Status.queued } := by
        unfold claimOne
        rw [hs]
      rw [this] at h
      simp at h
  · intro j h
    cases hs : selectJob store with
    | none =>
      have : (claimOne store).1 = none := by
        unfold claimOne
        rw [hs]
      rw [this] at h
      simp at h
    | some j0 =>
      have hc : claimOne store =
          (some { j0 with status := Status.queued }, setQueued store j0.id) := by
        unfold claimOne
        rw [hs]
      rw [hc] at h
      simp at h
      subst h
      refine ⟨rfl, ?_⟩
      have hmem := candidates_sub_store (firstByCreatedAt_mem hs)
      obtain ⟨pre, post, hsplit⟩ := List.append_of_mem hmem.1
      have hpre : ∀ k ∈ pre, k.id ≠ j0.id := by
        intro k hk heq
        rw [hsplit] at hids
        simp only [List.map_append, List.map_cons, List.nodup_append] at hids
        exact hids.2.2 (List.mem_map.mpr ⟨k, hk, heq⟩)
          (List.mem_cons_self _ _)
      have hpost : ∀ k ∈ post, k.id ≠ j0.id := by
        intro k hk heq
        rw [hsplit] at hids
        simp only [List.map_append, List.map_cons] at hids
        have h1 := (List.nodup_append.mp hids).2.1
        have h2 := (List.nodup_cons.mp h1).1
        exact h2 (List.mem_map.mpr ⟨k, hk, heq⟩)
      refine ⟨pre, j0, post, hsplit, hmem.2, rfl, ?_⟩
      rw [hc, hsplit]
      exact setQueued_split hpre hpost

/-- Witness for C4: a store of two jobs with distinct ids; the claim
rewrites exactly the pending row with `created_at` 1. -/
theorem dequeue_claim_transition_witness :
    (([⟨1, 10, "package", Status.pending, 1⟩,
        ⟨2, 11, "package", Status.finished, 0⟩] : Store).map Job.id).Nodup ∧
    (∀ j : Job, (claimOne [⟨1, 10, "package", Status.pending, 1⟩,
        ⟨2, 11, "package", Status.finished, 0⟩]).1 = some j →
      j.status = Status.queued ∧
      ∃ pre j0 post,
        ([⟨1, 10, "package", Status.pending, 1⟩,
          ⟨2, 11, "package", Status.finished, 0⟩] : Store) =
            pre ++ j0 :: post ∧
        j0.status = Status.pending ∧
        j = { j0 with status := Status.queued } ∧
        (claimOne [⟨1, 10, "package", Status.pending, 1⟩,
          ⟨2, 11, "package", Status.finished, 0⟩]).2 =
            pre ++ { j0 with status := Status.queued } :: post) :=
  ⟨by decide,
    (dequeue_claim_transition
      [⟨1, 10, "package", Status.pending, 1⟩,
        ⟨2, 11, "package", Status.finished, 0⟩] (by decide)).2⟩

/-- Claim C8: with an empty candidate set, a poll claims nothing and
leaves every row of the store unchanged, and any number of repeated
polls still changes nothing. -/
theorem dequeue_empty_poll_frame (store : Store)
    (h : candidates store = []) :
    (claimOne store).1 = none ∧ (claimOne store).2 = store ∧
    ∀ n : Nat, iterClaim n store = store := by
  have hsel : selectJob store = none := by
    unfold selectJob
    rw [h]
    rfl
  have hclaim : claimOne store = (none, store) := by
    unfold claimOne
    rw [hsel]
  refine ⟨by rw [hclaim], by rw [hclaim], ?_⟩
  intro n
  induction n with
  | zero => rfl
  | succ m ih =>
    show iterClaim m (claimOne store).2 = store
    rw [hclaim]
    exact ih

/-- Witness for C8: a busy project (one queued job) with one pending job:
the candidate set is empty, three repeated polls change nothing. -/
theorem dequeue_empty_poll_frame_witness :
    candidates [⟨1, 10, "package", Status.queued, 0⟩,
        ⟨2, 10, "package", Status.pending, 1⟩] = [] ∧
    (claimOne [⟨1, 10, "package", Status.queued, 0⟩,
        ⟨2, 10, "package", Status.pending, 1⟩]).1 = none ∧
    (claimOne [⟨1, 10, "package", Status.queued, 0⟩,
        ⟨2, 10, "package", Status.pending, 1⟩]).2 =
      [⟨1, 10, "package", Status.queued, 0⟩,
        ⟨2, 10, "package", Status.pending, 1⟩] ∧
    ∀ n : Nat, iterClaim n [⟨1, 10, "package", Status.queued, 0⟩,
        ⟨2, 10, "package", Status.pending, 1⟩] =
      [⟨1, 10, "package", Status.queued, 0⟩,
        ⟨2, 10, "package", Status.pending, 1⟩] :=
  ⟨by decide, dequeue_empty_poll_frame _ (by decide)⟩

lemma lookupRunClass_eq_none {t : String} :
    lookupRunClass t = none ↔
      t ≠ "package" ∧ t ≠ "delta_apply" ∧ t ≠ "process_projectfile" := by
  unfold lookupRunClass jobRunClasses
  by_cases h1 : t = "package"
  · subst h1
    simp
  · by_cases h2 : t = "delta_apply"
    · subst h2
      simp
    · by_cases h3 : t = "process_projectfile"
      · subst h3
        simp
      · have b1 : ("package" == t) = false := by
          simp [Ne.symm h1]
        have b2 : ("delta_apply" == t) = false := by
          simp [Ne.symm h2]
        have b3 : ("process_projectfile" == t) = false := by
          simp [Ne.symm h3]
        simp [List.find?, b1, b2, b3, h1, h2, h3]

/-- Claim C5: the dispatch of `Command._run` is total on the job type:
each of the three known types maps to its job-run class and `_run` then
invokes it, and `_run` raises the unimplemented-type error exactly when
the type is none of the three. -/
theorem runner_dispatch_total :
    lookupRunClass "package" = some RunnerClass.packageJobRun ∧
    lookupRunClass "delta_apply" = some RunnerClass.deltaApplyJobRun ∧
    lookupRunClass "process_projectfile" =
      some RunnerClass.processProjectfileJobRun ∧
    (∀ j : Job, ∀ c : RunnerClass,
      lookupRunClass j.type = some c → commandRun j = Except.ok c) ∧
    (∀ j : Job,
      (∃ m, commandRun j = Except.error m) ↔
        j.type ≠ "package" ∧ j.type ≠ "delta_apply" ∧
          j.type ≠ "process_projectfile") := by
  refine ⟨by decide, by decide, by decide, ?_, ?_⟩
  · intro j c h
    unfold commandRun
    rw [h]
  · intro j
    constructor
    · rintro ⟨m, hm⟩
      unfold commandRun at hm
      cases hl : lookupRunClass j.type with
      | none => exact lookupRunClass_eq_none.mp hl
      | some c => rw [hl] at hm; simp at hm
    · intro hne
      have hl : lookupRunClass j.type = none := lookupRunClass_eq_none.mpr hne
      refine ⟨"Unknown job type " ++ j.type, ?_⟩
      unfold commandRun
      rw [hl]

lemma claimOne_none_pair {store : Store} (h : (claimOne store).1 = none) :
    claimOne store = (none, store) := by
  unfold claimOne at h ⊢
  cases hs : selectJob store with
  | none => rfl
  | some j =>
    rw [hs] at h
    simp at h

lemma handleLoop_step_dead (ss : Bool) (flags : Nat → Bool) (n k : Nat)
    (store : Store) (hf : flags k = false) :
    handleLoop ss flags (n + 1) store k =
      ([Event.topCheck false, Event.exited], store) := by
  unfold handleLoop
  rw [hf]
  simp

lemma handleLoop_step_claim_ok (ss : Bool) (flags : Nat → Bool) (n k : Nat)
    (store store' : Store) (j : Job) (c : RunnerClass)
    (hf : flags k = true) (hc : claimOne store = (some j, store'))
    (hr : commandRun j = Except.ok c) :
    handleLoop ss flags (n + 1) store k =
      (if ss then
        ([Event.topCheck true, Event.claimed j.id, Event.ran j.id], store')
      else
        (Event.topCheck true :: Event.claimed j.id :: Event.ran j.id ::
          (handleLoop ss flags n store' (k + 1)).1,
          (handleLoop ss flags n store' (k + 1)).2)) := by
  conv_lhs => rw [handleLoop]
  rw [hf, hc]
  simp only [hr]
  cases ss <;> simp

lemma handleLoop_step_claim_err (ss : Bool) (flags : Nat → Bool) (n k : Nat)
    (store store' : Store) (j : Job) (m : String)
    (hf : flags k = true) (hc : claimOne store = (some j, store'))
    (hr : commandRun j = Except.error m) :
    handleLoop ss flags (n + 1) store k =
      ([Event.topCheck true, Event.claimed j.id, Event.raised m], store') := by
  conv_lhs => rw [handleLoop]
  rw [hf, hc]
  simp only [hr]
  simp

lemma handleLoop_step_empty (ss : Bool) (flags : Nat → Bool) (n k : Nat)
    (store : Store) (hf : flags k = true)
    (hc : claimOne store = (none, store)) :
    handleLoop ss flags (n + 1) store k =
      (if ss then ([Event.topCheck true, Event.emptyPoll], store)
      else
        (Event.topCheck true :: Event.emptyPoll ::
          ((sleepPhase flags (k + 1) 5).1 ++
            (handleLoop ss flags n store (sleepPhase flags (k + 1) 5).2).1),
          (handleLoop ss flags n store (sleepPhase flags (k + 1) 5).2).2)) := by
  conv_lhs => rw [handleLoop]
  rw [hf, hc]
  cases ss <;> simp

/-- Claim C6: with `--single-shot` and the process alive, the loop does
exactly one iteration whatever the fuel — one flag read at the `while`
condition, then either a claim with its synchronous run or one empty
poll — and exits without ever sleeping. -/
theorem dequeue_single_shot (flags : Nat → Bool) (fuel k : Nat)
    (store : Store) (hf : flags k = true) :
    handleLoop true flags (fuel + 1) store k =
      handleLoop true flags 1 store k ∧
    countTop (handleLoop true flags (fuel + 1) store k).1 = 1 ∧
    Event.slept ∉ (handleLoop true flags (fuel + 1) store k).1 ∧
    Event.sleepCheck true ∉ (handleLoop true flags (fuel + 1) store k).1 ∧
    Event.sleepCheck false ∉ (handleLoop true flags (fuel + 1) store k).1 := by
  rcases hc : claimOne store with ⟨o, s'⟩
  cases o with
  | none =>
    have hpair : claimOne store = (none, store) := by
      apply claimOne_none_pair
      rw [hc]
    rw [handleLoop_step_empty true flags fuel k store hf hpair,
      handleLoop_step_empty true flags 0 k store hf hpair]
    simp [countTop, isTopCheck, List.filter]
  | some j =>
    cases hr : commandRun j with
    | error m =>
      rw [handleLoop_step_claim_err true flags fuel k store s' j m hf hc hr,
        handleLoop_step_claim_err true flags 0 k store s' j m hf hc hr]
      simp [countTop, isTopCheck, List.filter]
    | ok c =>
      rw [handleLoop_step_claim_ok true flags fuel k store s' j c hf hc hr,
        handleLoop_step_claim_ok true flags 0 k store s' j c hf hc hr]
      simp [countTop, isTopCheck, List.filter]

/-- Witness for C6: single-shot on the empty store with the flag up:
the trace is one flag read and one empty poll. -/
theorem dequeue_single_shot_witness :
    (fun _ : Nat => true) 0 = true ∧
    (handleLoop true (fun _ => true) (3 + 1) [] 0 =
      handleLoop true (fun _ => true) 1 [] 0 ∧
    countTop (handleLoop true (fun _ => true) (3 + 1) [] 0).1 = 1 ∧
    Event.slept ∉ (handleLoop true (fun _ => true) (3 + 1) [] 0).1 ∧
    Event.sleepCheck true ∉ (handleLoop true (fun _ => true) (3 + 1) [] 0).1 ∧
    Event.sleepCheck false ∉ (handleLoop true (fun _ => true) (3 + 1) [] 0).1) :=
  ⟨rfl, dequeue_single_shot (fun _ => true) 3 0 [] rfl⟩

/-- Counterexample to C3 as stated: a claimed job whose type is unknown
makes `_run` raise, `handle` has no try/except around `self._run`, and the
raise ends the loop: on the store holding one pending job of type
"garbage", with the alive flag always true and fuel for five iterations,
the trace ends at the raise after a single `while`-condition read — no
subsequent iteration polls. -/
theorem runner_failure_counterexample :
    (handleLoop false (fun _ => true) 5
        [⟨1, 10, "garbage", Status.pending, 0⟩] 0).1 =
      [Event.topCheck true, Event.claimed 1,
        Event.raised "Unknown job type garbage"] ∧
    countTop (handleLoop false (fun _ => true) 5
        [⟨1, 10, "garbage", Status.pending, 0⟩] 0).1 = 1 := by
  decide

/-- Claim C3 amended: a claimed job of a known type never raises out of
`_run` (its handler catches execution failures internally — modelled from
the spec, `worker_wrapper` being outside src/) and the loop goes on
polling; but a claimed job of unknown type raises `NotImplementedError`
out of `_run`, which `handle` does not catch: the loop terminates at the
raise instead of continuing. -/
theorem runner_failure_boundary (store store' : Store) (j : Job)
    (flags : Nat → Bool) (fuel k : Nat)
    (hf : flags k = true) (hc : claimOne store = (some j, store')) :
    (∀ m : String, commandRun j = Except.error m →
      (handleLoop false flags (fuel + 1) store k).1 =
        [Event.topCheck true, Event.claimed j.id, Event.raised m]) ∧
    (∀ c : RunnerClass, commandRun j = Except.ok c →
      (handleLoop false flags (fuel + 1) store k).1 =
        Event.topCheck true :: Event.claimed j.id :: Event.ran j.id ::
          (handleLoop false flags fuel store' (k + 1)).1) := by
  constructor
  · intro m hr
    rw [handleLoop_step_claim_err false flags fuel k store store' j m hf hc hr]
  · intro c hr
    rw [handleLoop_step_claim_ok false flags fuel k store store' j c hf hc hr]
    simp

/-- Witness for amended C3: the concrete unknown-type job, claimed from a
one-row store, with both implications instantiated at it. -/
theorem runner_failure_boundary_witness :
    (∀ m : String,
      commandRun ⟨1, 10, "garbage", Status.queued, 0⟩ = Except.error m →
      (handleLoop false (fun _ => true) (1 + 1)
          [⟨1, 10, "garbage", Status.pending, 0⟩] 0).1 =
        [Event.topCheck true, Event.claimed 1, Event.raised m]) ∧
    (∀ c : RunnerClass,
      commandRun ⟨1, 10, "garbage", Status.queued, 0⟩ = Except.ok c →
      (handleLoop false (fun _ => true) (1 + 1)
          [⟨1, 10, "garbage", Status.pending, 0⟩] 0).1 =
        Event.topCheck true :: Event.claimed 1 :: Event.ran 1 ::
          (handleLoop false (fun _ => true) 1
            [⟨1, 10, "garbage", Status.queued, 0⟩] (0 + 1)).1) :=
  runner_failure_boundary [⟨1, 10, "garbage", Status.pending, 0⟩]
    [⟨1, 10, "garbage", Status.queued, 0⟩] ⟨1, 10, "garbage", Status.queued, 0⟩
    (fun _ => true) 1 0 rfl (by decide)

lemma chainOk_nil {p : Event} (hp : neutralPrev p = true) :
    chainOk p [] = true := by
  cases p with
  | topCheck b => rfl
  | claimed j => simp [neutralPrev] at hp
  | emptyPoll => rfl
  | ran j => rfl
  | raised m => simp [neutralPrev] at hp
  | sleepCheck b =>
    cases b with
    | true => simp [neutralPrev] at hp
    | false => rfl
  | slept => rfl
  | exited => rfl

lemma chainOk_cons {p : Event} (hp : neutralPrev p = true) (e : Event)
    (rest : List Event) :
    chainOk p (e :: rest) = (adjOk p e && chainOk e rest) := by
  cases p with
  | topCheck b => rfl
  | claimed j => simp [neutralPrev] at hp
  | emptyPoll => rfl
  | ran j => rfl
  | raised m => simp [neutralPrev] at hp
  | sleepCheck b =>
    cases b with
    | true => simp [neutralPrev] at hp
    | false => rfl
  | slept => rfl
  | exited => simp [neutralPrev] at hp

lemma adjOk_topCheck {p : Event} (hp : neutralPrev p = true) (b : Bool) :
    adjOk p (Event.topCheck b) = true := by
  cases p with
  | topCheck c => rfl
  | claimed j => simp [neutralPrev] at hp
  | emptyPoll => rfl
  | ran j => rfl
  | raised m => rfl
  | sleepCheck c =>
    cases c with
    | true => simp [neutralPrev] at hp
    | false => rfl
  | slept => rfl
  | exited => rfl

lemma adjOk_sleepCheck {p : Event} (hp : neutralPrev p = true) (b : Bool) :
    adjOk p (Event.sleepCheck b) = true := by
  cases p with
  | topCheck c => rfl
  | claimed j => simp [neutralPrev] at hp
  | emptyPoll => rfl
  | ran j => rfl
  | raised m => rfl
  | sleepCheck c =>
    cases c with
    | true => simp [neutralPrev] at hp
    | false => rfl
  | slept => rfl
  | exited => rfl

lemma chainOk_sleepPhase (flags : Nat → Bool) (tail : List Event)
    (htail : ∀ q, neutralPrev q = true → chainOk q tail = true) :
    ∀ n k2 : Nat, ∀ p : Event, neutralPrev p = true →
      chainOk p ((sleepPhase flags k2 n).1 ++ tail) = true := by
  intro n
  induction n with
  | zero =>
    intro k2 p hp
    show chainOk p ([] ++ tail) = true
    rw [List.nil_append]
    exact htail p hp
  | succ m ih =>
    intro k2 p hp
    by_cases hf : flags k2
    · have hev : (sleepPhase flags k2 (m + 1)).1 =
          Event.sleepCheck true :: Event.slept ::
            (sleepPhase flags (k2 + 1) m).1 := by
        simp [sleepPhase, hf]
      rw [hev, List.cons_append, List.cons_append, chainOk_cons hp,
        adjOk_sleepCheck hp]
      have h2 : chainOk (Event.sleepCheck true)
          (Event.slept :: ((sleepPhase flags (k2 + 1) m).1 ++ tail)) =
          chainOk Event.slept ((sleepPhase flags (k2 + 1) m).1 ++ tail) := by
        show (adjOk (Event.sleepCheck true) Event.slept &&
          chainOk Event.slept _) = _
        rfl
      rw [h2, ih (k2 + 1) Event.slept rfl]
      rfl
    · have hev : (sleepPhase flags k2 (m + 1)).1 =
          Event.sleepCheck false :: (sleepPhase flags (k2 + 1) m).1 := by
        simp [sleepPhase, hf]
      rw [hev, List.cons_append, chainOk_cons hp, adjOk_sleepCheck hp,
        ih (k2 + 1) (Event.sleepCheck false) rfl]
      rfl

lemma chainOk_handleLoop (flags : Nat → Bool) :
    ∀ fuel k : Nat, ∀ store : Store, ∀ p : Event, neutralPrev p = true →
      chainOk p (handleLoop false flags fuel store k).1 = true := by
  intro fuel
  induction fuel with
  | zero =>
    intro k store p hp
    exact chainOk_nil hp
  | succ n ih =>
    intro k store p hp
    by_cases hf : flags k
    · rcases hc : claimOne store with ⟨o, s'⟩
      cases o with
      | none =>
        have hpair : claimOne store = (none, store) := by
          apply claimOne_none_pair
          rw [hc]
        rw [handleLoop_step_empty false flags n k store hf hpair]
        simp only [Bool.false_eq_true, if_false]
        rw [chainOk_cons hp, adjOk_topCheck hp]
        have h2 : chainOk (Event.topCheck true)
            (Event.emptyPoll :: ((sleepPhase flags (k + 1) 5).1 ++
              (handleLoop false flags n store
                (sleepPhase flags (k + 1) 5).2).1)) =
            chainOk Event.emptyPoll ((sleepPhase flags (k + 1) 5).1 ++
              (handleLoop false flags n store
                (sleepPhase flags (k + 1) 5).2).1) := by
          show (adjOk (Event.topCheck true) Event.emptyPoll &&
            chainOk Event.emptyPoll _) = _
          rfl
        rw [h2]
        rw [chainOk_sleepPhase flags _
          (fun q hq => ih (sleepPhase flags (k + 1) 5).2 store q hq) 5 (k + 1)
          Event.emptyPoll rfl]
        rfl
      | some j =>
        cases hr : commandRun j with
        | error m =>
          rw [handleLoop_step_claim_err false flags n k store s' j m hf hc hr]
          rw [chainOk_cons hp, adjOk_topCheck hp]
          show (true && (adjOk (Event.topCheck true) (Event.claimed j.id) &&
            chainOk (Event.claimed j.id) [Event.raised m])) = true
          simp [adjOk, chainOk]
        | ok c =>
          rw [handleLoop_step_claim_ok false flags n k store s' j c hf hc hr]
          simp only [Bool.false_eq_true, if_false]
          rw [chainOk_cons hp, adjOk_topCheck hp]
          have h2 : chainOk (Event.topCheck true)
              (Event.claimed j.id :: Event.ran j.id ::
                (handleLoop false flags n s' (k + 1)).1) =
              (adjOk (Event.claimed j.id) (Event.ran j.id) &&
                chainOk (Event.ran j.id)
                  (handleLoop false flags n s' (k + 1)).1) := by
            show (adjOk (Event.topCheck true) (Event.claimed j.id) &&
              (adjOk (Event.claimed j.id) (Event.ran j.id) &&
                chainOk (Event.ran j.id) _)) = _
            rfl
          rw [h2]
          have h3 : adjOk (Event.claimed j.id) (Event.ran j.id) = true := by
            simp [adjOk]
          rw [h3, ih (k + 1) s' (Event.ran j.id) rfl]
          rfl
    · have hf2 : flags k = false := by
        simpa using hf
      rw [handleLoop_step_dead false flags n k store hf2]
      rw [chainOk_cons hp, adjOk_topCheck hp]
      rfl

lemma countEvents_append (p : Event → Bool) (l1 l2 : List Event) :
    countEvents p (l1 ++ l2) = countEvents p l1 + countEvents p l2 := by
  simp [countEvents, List.filter_append]

lemma countEvents_cons (p : Event → Bool) (e : Event) (l : List Event) :
    countEvents p (e :: l) = (if p e = true then 1 else 0) + countEvents p l := by
  unfold countEvents
  rw [List.filter_cons]
  by_cases hp : p e
  · simp [hp, Nat.add_comm]
  · simp [hp]

lemma sleepPhase_sleepChecks (flags : Nat → Bool) :
    ∀ n k2 : Nat, countEvents isSleepCheck (sleepPhase flags k2 n).1 = n := by
  intro n
  induction n with
  | zero => intro k2; rfl
  | succ m ih =>
    intro k2
    by_cases hf : flags k2
    · have hev : (sleepPhase flags k2 (m + 1)).1 =
          Event.sleepCheck true :: Event.slept ::
            (sleepPhase flags (k2 + 1) m).1 := by
        simp [sleepPhase, hf]
      rw [hev, countEvents_cons, countEvents_cons, ih (k2 + 1)]
      simp [isSleepCheck]
      omega
    · have hev : (sleepPhase flags k2 (m + 1)).1 =
          Event.sleepCheck false :: (sleepPhase flags (k2 + 1) m).1 := by
        simp [sleepPhase, hf]
      rw [hev, countEvents_cons, ih (k2 + 1)]
      simp [isSleepCheck]
      omega

lemma sleepPhase_emptyPolls (flags : Nat → Bool) :
    ∀ n k2 : Nat, countEvents isEmptyPoll (sleepPhase flags k2 n).1 = 0 := by
  intro n
  induction n with
  | zero => intro k2; rfl
  | succ m ih =>
    intro k2
    by_cases hf : flags k2
    · have hev : (sleepPhase flags k2 (m + 1)).1 =
          Event.sleepCheck true :: Event.slept ::
            (sleepPhase flags (k2 + 1) m).1 := by
        simp [sleepPhase, hf]
      rw [hev, countEvents_cons, countEvents_cons, ih (k2 + 1)]
      simp [isEmptyPoll]
    · have hev : (sleepPhase flags k2 (m + 1)).1 =
          Event.sleepCheck false :: (sleepPhase flags (k2 + 1) m).1 := by
        simp [sleepPhase, hf]
      rw [hev, countEvents_cons, ih (k2 + 1)]
      simp [isEmptyPoll]

lemma handleLoop_sleep_poll_count (flags : Nat → Bool) :
    ∀ fuel k : Nat, ∀ store : Store,
      countEvents isSleepCheck (handleLoop false flags fuel store k).1 =
        5 * countEvents isEmptyPoll (handleLoop false flags fuel store k).1 := by
  intro fuel
  induction fuel with
  | zero => intro k store; rfl
  | succ n ih =>
    intro k store
    by_cases hf : flags k
    · rcases hc : claimOne store with ⟨o, s'⟩
      cases o with
      | none =>
        have hpair : claimOne store = (none, store) := by
          apply claimOne_none_pair
          rw [hc]
        rw [handleLoop_step_empty false flags n k store hf hpair]
        simp only [Bool.false_eq_true, if_false]
        simp only [countEvents_cons, countEvents_append,
          sleepPhase_sleepChecks flags 5 (k + 1),
          sleepPhase_emptyPolls flags 5 (k + 1),
          ih (sleepPhase flags (k + 1) 5).2 store]
        simp [isSleepCheck, isEmptyPoll]
        omega
      | some j =>
        cases hr : commandRun j with
        | error m =>
          rw [handleLoop_step_claim_err false flags n k store s' j m hf hc hr]
          rfl
        | ok c =>
          rw [handleLoop_step_claim_ok false flags n k store s' j c hf hc hr]
          simp only [Bool.false_eq_true, if_false]
          simp only [countEvents_cons, ih (k + 1) s']
          simp [isSleepCheck, isEmptyPoll]
    · have hf2 : flags k = false := by
        simpa using hf
      rw [handleLoop_step_dead false flags n k store hf2]
      rfl

lemma handleLoop_head (flags : Nat → Bool) (fuel k : Nat) (store : Store) :
    (handleLoop false flags (fuel + 1) store k).1.head? =
      some (Event.topCheck (flags k)) := by
  by_cases hf : flags k
  · rcases hc : claimOne store with ⟨o, s'⟩
    cases o with
    | none =>
      have hpair : claimOne store = (none, store) := by
        apply claimOne_none_pair
        rw [hc]
      rw [handleLoop_step_empty false flags fuel k store hf hpair]
      simp [hf]
    | some j =>
      cases hr : commandRun j with
      | error m =>
        rw [handleLoop_step_claim_err false flags fuel k store s' j m hf hc hr]
        simp [hf]
      | ok c =>
        rw [handleLoop_step_claim_ok false flags fuel k store s' j c hf hc hr]
        simp [hf]
  · have hf2 : flags k = false := by
      simpa using hf
    rw [handleLoop_step_dead false flags fuel k store hf2]
    simp [hf2]

/-- Claim C7: in daemon mode every trace of the loop is disciplined: it
opens with a `while`-condition read of the alive flag and every
iteration re-reads it there; the clean exit happens only immediately
after such a read returned false — never between the claim transaction
and the run of the claimed job, which directly follows its claim with no
flag read in between, and never inside a sleep unit; a unit of sleep
happens exactly after an in-sleep flag read that returned true; and the
idle sleep reads the flag once per unit, 5 reads for each empty poll. -/
theorem dequeue_graceful_shutdown (flags : Nat → Bool) (fuel k : Nat)
    (store : Store) :
    traceOk (handleLoop false flags fuel store k).1 = true ∧
    countEvents isSleepCheck (handleLoop false flags fuel store k).1 =
      5 * countEvents isEmptyPoll (handleLoop false flags fuel store k).1 := by
  refine ⟨?_, handleLoop_sleep_poll_count flags fuel k store⟩
  cases fuel with
  | zero => rfl
  | succ n =>
    have hchain := chainOk_handleLoop flags (n + 1) k store (Event.ran 0) rfl
    have hhead := handleLoop_head flags n k store
    cases htr : (handleLoop false flags (n + 1) store k).1 with
    | nil => rw [htr] at hhead; simp at hhead
    | cons e rest =>
      rw [htr] at hhead hchain
      simp at hhead
      subst hhead
      have hneu : neutralPrev (Event.ran 0) = true := rfl
      rw [chainOk_cons hneu, adjOk_topCheck hneu] at hchain
      simp only [Bool.true_and] at hchain
      show (isTopCheck (Event.topCheck (flags k)) &&
        chainOk (Event.topCheck (flags k)) rest) = true
      rw [hchain]
      rfl

lemma saveDeltas_prefix (projectId dfid : Nat) :
    ∀ ds : List DeltaInput, ∀ stored : List StoredDelta,
      ∃ n ≤ ds.length,
        (saveDeltas projectId dfid ds stored).2 =
          stored ++ (ds.take n).map (deltaRow projectId dfid) := by
  intro ds
  induction ds with
  | nil =>
    intro stored
    exact ⟨0, Nat.le_refl 0, by simp [saveDeltas]⟩
  | cons d rest ih =>
    intro stored
    by_cases hd : d.saveOk
    · obtain ⟨n, hn, heq⟩ := ih (stored ++ [deltaRow projectId dfid d])
      refine ⟨n + 1, by simpa using Nat.succ_le_succ hn, ?_⟩
      show (saveDeltas projectId dfid (d :: rest) stored).2 = _
      unfold saveDeltas
      rw [if_pos hd]
      rw [heq]
      simp [List.take_succ_cons]
    · refine ⟨0, Nat.zero_le _, ?_⟩
      show (saveDeltas projectId dfid (d :: rest) stored).2 = _
      unfold saveDeltas
      rw [if_neg hd]
      simp

/-- Claim C10: on a deltafile POST that carries a file, any failure of
JSON parsing, schema validation or an individual save makes the handler
upload the raw file to the rejected storage and raise
`DeltafileValidationError`; the rows saved before the failing one stay
(the table ends holding a — possibly proper — prefix of the file's
deltas: the upload is not atomic); a request with no file raises
`EmptyContentError` first and mutates nothing. -/
theorem deltafile_upload_error_handling (projectId : Nat) (f : DeltaFile)
    (s : DeltaState)
    (herr : ∃ e, (postDeltafile projectId (some f) s).1 = Except.error e) :
    (postDeltafile projectId (some f) s).1 =
      Except.error DeltaError.deltafileValidation ∧
    (postDeltafile projectId (some f) s).2.rejected = s.rejected ++ [f.raw] ∧
    (∃ n ≤ f.deltas.length,
      (postDeltafile projectId (some f) s).2.stored =
        s.stored ++ (f.deltas.take n).map (deltaRow projectId f.id)) ∧
    ∀ s2 : DeltaState,
      (postDeltafile projectId none s2).1 =
        Except.error DeltaError.emptyContent ∧
      (postDeltafile projectId none s2).2 = s2 := by
  by_cases hp1 : f.parseOk
  · by_cases hp2 : f.schemaOk
    · rcases hsv : saveDeltas projectId f.id f.deltas s.stored with ⟨b, stored'⟩
      cases b with
      | true =>
        exfalso
        obtain ⟨e, he⟩ := herr
        have : (postDeltafile projectId (some f) s).1 = Except.ok () := by
          unfold postDeltafile
          simp [hp1, hp2, hsv]
        rw [this] at he
        simp at he
      | false =>
        have hpost : postDeltafile projectId (some f) s =
            (Except.error DeltaError.deltafileValidation,
              ⟨stored', s.rejected ++ [f.raw]⟩) := by
          unfold postDeltafile
          simp [hp1, hp2, hsv]
        obtain ⟨n, hn, heq⟩ := saveDeltas_prefix projectId f.id f.deltas s.stored
        rw [hsv] at heq
        exact ⟨by rw [hpost], by rw [hpost],
          ⟨n, hn, by rw [hpost]; exact heq⟩, fun s2 => ⟨rfl, rfl⟩⟩
    · have hpost : postDeltafile projectId (some f) s =
          (Except.error DeltaError.deltafileValidation,
            { s with rejected := s.rejected ++ [f.raw] }) := by
        unfold postDeltafile
        simp [hp1, hp2]
      exact ⟨by rw [hpost], by rw [hpost],
        ⟨0, Nat.zero_le _, by rw [hpost]; simp⟩, fun s2 => ⟨rfl, rfl⟩⟩
  · have hpost : postDeltafile projectId (some f) s =
        (Except.error DeltaError.deltafileValidation,
          { s with rejected := s.rejected ++ [f.raw] }) := by
      unfold postDeltafile
      simp [hp1]
    exact ⟨by rw [hpost], by rw [hpost],
      ⟨0, Nat.zero_le _, by rw [hpost]; simp⟩, fun s2 => ⟨rfl, rfl⟩⟩

/-- Witness for C10: a parsed, schema-valid file of two deltas whose
second save fails: the handler stores the first delta only, uploads the
raw file to the rejected storage, and raises the validation error. -/
theorem deltafile_upload_error_handling_witness :
    (∃ e, (postDeltafile 3 (some ⟨"raw", true, true, 7,
        [⟨1, true, true⟩, ⟨2, true, false⟩]⟩) ⟨[], []⟩).1 =
      Except.error e) ∧
    ((postDeltafile 3 (some ⟨"raw", true, true, 7,
        [⟨1, true, true⟩, ⟨2, true, false⟩]⟩) ⟨[], []⟩).1 =
      Except.error DeltaError.deltafileValidation ∧
    (postDeltafile 3 (some ⟨"raw", true, true, 7,
        [⟨1, true, true⟩, ⟨2, true, false⟩]⟩) ⟨[], []⟩).2.rejected =
      [] ++ ["raw"] ∧
    (∃ n ≤ ([⟨1, true, true⟩, ⟨2, true, false⟩] : List DeltaInput).length,
      (postDeltafile 3 (some ⟨"raw", true, true, 7,
          [⟨1, true, true⟩, ⟨2, true, false⟩]⟩) ⟨[], []⟩).2.stored =
        [] ++ (([⟨1, true, true⟩, ⟨2, true, false⟩] :
          List DeltaInput).take n).map (deltaRow 3 7)) ∧
    ∀ s2 : DeltaState,
      (postDeltafile 3 none s2).1 = Except.error DeltaError.emptyContent ∧
      (postDeltafile 3 none s2).2 = s2) :=
  ⟨⟨DeltaError.deltafileValidation, rfl⟩,
    deltafile_upload_error_handling 3
      ⟨"raw", true, true, 7, [⟨1, true, true⟩, ⟨2, true, false⟩]⟩ ⟨[], []⟩
      ⟨DeltaError.deltafileValidation, rfl⟩⟩

end QFC
